import Mathlib

/-!
Verification of the natural-language specification of the
`t-tests-and-anova` repository (educational statistics notebooks) against a
shallow embedding of its code.

The repository consists of Jupyter notebooks that are straight-line Python
scripts: they bind dataframe columns to variables and call statistics
routines (`chi2_contingency`, `chisquare`, `f_oneway`, `levene`,
`ttest_ind`) on them.  Two kinds of embedding are used below.

1. Dataflow models.  Each notebook's relevant cells are embedded as a list
   of statements over a small variable store, executed top to bottom; test
   invocations and assumption checks record the values their variables
   resolve to at that point.  This settles the claims about which data a
   given call actually receives.

2. Numeric models.  The statistics routines the notebooks call are embedded
   over `ℚ` (exact arithmetic standing for the floating point reals),
   translated from the algorithms the called library actually runs:
   `chi2_contingency` (expected counts from row/column totals, Yates
   continuity correction when the degrees of freedom equal 1, Pearson sum),
   `chisquare`, `f_oneway` (the square-of-sums computation), and `levene`
   (median centering, `W = ((N-k)·Σnᵢ(Z̄ᵢ-Z̄)²)/((k-1)·ΣΣ(Zᵢⱼ-Z̄ᵢ)²)`).
   Distribution CDFs and the square root are abstracted as function
   parameters, as the specification treats them as trusted primitives.
   Engine operations the specification describes but that exist nowhere in
   the sources (`t_test_two_sample` and its error handling) are modelled
   from the specification's words and marked as such.
-/

namespace TTestsAnova

/-! ## Dataflow model of the t-tests notebook (src/unnamed/part_000)

The t-tests notebook binds `group_1`/`group_2` to the diabetes dataset's
sex groups (lines 510-511), later binds `group_0`/`group_1` to the breast
cancer dataset's malignant/benign mean-radius groups (lines 877-878), and
calls `levene` and `ttest_ind` on these variables at four places.  The
store maps the three variable names to the sample each one currently
holds. -/

/-- The three notebook variables that hold sample groups. -/
inductive PVar
  | group0
  | group1
  | group2
deriving DecidableEq

/-- The concrete samples the notebook ever binds to those variables:
the diabetes target split by sex (one-tailed section) and the breast
cancer mean radius split by malignant/benign (two-tailed section). -/
inductive Sample
  | diabetesSex1
  | diabetesSex2
  | bcMalignant
  | bcBenign
deriving DecidableEq

/-- Which library routine a recorded call invoked. -/
inductive CallKind
  | ttest
  | levene
deriving DecidableEq

/-- A recorded two-argument call with the samples its variable arguments
resolved to at execution time (`none` = unbound variable). -/
structure CallRecord where
  kind : CallKind
  arg1 : Option Sample
  arg2 : Option Sample
deriving DecidableEq

/-- Statements of the t-tests notebook that touch the group variables. -/
inductive TStmt
  | assign (x : PVar) (v : Sample)
  | call (k : CallKind) (x y : PVar)

/-- Store update. -/
def updateP (env : PVar → Option Sample) (x : PVar) (v : Sample) :
    PVar → Option Sample :=
  fun y => if y = x then some v else env y

/-- Top-to-bottom execution, recording each call with the values its
arguments resolve to at that point. -/
def runT : List TStmt → (PVar → Option Sample) → List CallRecord
  | [], _ => []
  | TStmt.assign x v :: rest, env => runT rest (updateP env x v)
  | TStmt.call k x y :: rest, env => ⟨k, env x, env y⟩ :: runT rest env

/-- The t-tests notebook's group bindings and test calls, in source order
(file line numbers of src/unnamed/part_000 in comments). -/
def tTestNotebook : List TStmt :=
  [ TStmt.assign PVar.group1 Sample.diabetesSex1,       -- line 510
    TStmt.assign PVar.group2 Sample.diabetesSex2,       -- line 511
    TStmt.call CallKind.levene PVar.group1 PVar.group2, -- line 652
    TStmt.call CallKind.ttest PVar.group2 PVar.group1,  -- line 705 (one-tailed)
    TStmt.assign PVar.group0 Sample.bcMalignant,        -- line 877
    TStmt.assign PVar.group1 Sample.bcBenign,           -- line 878
    TStmt.call CallKind.levene PVar.group0 PVar.group1, -- line 995
    TStmt.call CallKind.ttest PVar.group2 PVar.group1 ] -- line 1038 (two-tailed)

/-- The calls the notebook performs, from an initially empty store. -/
def tTestCalls : List CallRecord :=
  runT tTestNotebook (fun _ => none)

end TTestsAnova

namespace TTestsAnova

/-! ## Dataflow model of the chi-squared notebook (src/notebooks/chi_squared.ipynb)

The chi-squared notebook assigns `expected` three times (independence test
line 198, goodness-of-fit line 439, homogeneity test line 978) and sets
`frequencies = expected.flatten()` only in the independence section (line
221) and the homogeneity section (line 1001).  Each assumption check reads
`expected` or `frequencies`; the goodness-of-fit check (lines 459-465)
reads `expected` for the all-greater-than-one check but `frequencies` for
the percent-below-5 figure. -/

/-- Variables of the chi-squared notebook tracked by the model. -/
inductive CVar
  | expected
  | frequencies
  | observed
deriving DecidableEq

/-- Symbolic values those variables ever hold: the three expected tables,
the observed sex counts, and `flat v` for `v.flatten()`. -/
inductive CVal
  | indepExpected
  | gofExpected
  | homExpected
  | sexCounts
  | flat (v : CVal)
deriving DecidableEq

/-- A recorded expected-frequency assumption check: the value read for the
all-greater-than-one test and the value read for the percent-below-5
figure. -/
structure CheckRecord where
  gtOneVal : Option CVal
  ltFiveVal : Option CVal
deriving DecidableEq

/-- Statements of the chi-squared notebook that touch the tracked
variables. -/
inductive CStmt
  | assign (x : CVar) (v : CVal)
  | assignFlatOf (x s : CVar)
  | check (gtOneSrc ltFiveSrc : CVar)

/-- Store update. -/
def updateC (env : CVar → Option CVal) (x : CVar) (v : Option CVal) :
    CVar → Option CVal :=
  fun y => if y = x then v else env y

/-- Top-to-bottom execution, recording each assumption check with the
values its two source variables resolve to at that point. -/
def runC : List CStmt → (CVar → Option CVal) → List CheckRecord
  | [], _ => []
  | CStmt.assign x v :: rest, env => runC rest (updateC env x (some v))
  | CStmt.assignFlatOf x s :: rest, env =>
      runC rest (updateC env x ((env s).map CVal.flat))
  | CStmt.check g l :: rest, env => ⟨env g, env l⟩ :: runC rest env

/-- The chi-squared notebook's assignments and assumption checks, in
source order (file line numbers of src/notebooks/chi_squared.ipynb in
comments). -/
def chiNotebook : List CStmt :=
  [ CStmt.assign CVar.expected CVal.indepExpected,        -- line 198
    CStmt.assignFlatOf CVar.frequencies CVar.expected,    -- line 221
    CStmt.check CVar.frequencies CVar.frequencies,        -- lines 222-226
    CStmt.assign CVar.observed CVal.sexCounts,            -- line 437
    CStmt.assign CVar.expected CVal.gofExpected,          -- line 439
    CStmt.check CVar.expected CVar.frequencies,           -- lines 459-465
    CStmt.assign CVar.expected CVal.homExpected,          -- line 978
    CStmt.assignFlatOf CVar.frequencies CVar.expected,    -- line 1001
    CStmt.check CVar.frequencies CVar.frequencies ]       -- lines 1002-1006

/-- The assumption checks the notebook performs, from an initially empty
store. -/
def chiChecks : List CheckRecord :=
  runC chiNotebook (fun _ => none)

end TTestsAnova

namespace TTestsAnova


/-! ## Numeric model of the chi-squared independence test

The notebook performs the independence test with
`chi2_contingency(contingency)` (chi_squared.ipynb line 198, default
arguments).  That routine computes row totals, column totals, the grand
total, expected counts `row_total * col_total / N`, degrees of freedom
`(R-1)(C-1)`, and the Pearson statistic; when the degrees of freedom equal
1 (a 2x2 table) and `correction` is left at its default `True`, it first
moves each observed count toward its expected count by
`min(0.5, |expected - observed|)` (Yates continuity correction).  The
embedding below translates that algorithm over `ℚ`. -/

/-- Row total of a contingency table. -/
def rowTotal {R C : ℕ} (o : Fin R → Fin C → ℚ) (i : Fin R) : ℚ :=
  ∑ j, o i j

/-- Column total of a contingency table. -/
def colTotal {R C : ℕ} (o : Fin R → Fin C → ℚ) (j : Fin C) : ℚ :=
  ∑ i, o i j

/-- Grand total of a contingency table. -/
def grandTotal {R C : ℕ} (o : Fin R → Fin C → ℚ) : ℚ :=
  ∑ i, ∑ j, o i j

/-- Expected counts under independence: `row_total * col_total / N`. -/
def expectedTable {R C : ℕ} (o : Fin R → Fin C → ℚ) (i : Fin R) (j : Fin C) : ℚ :=
  rowTotal o i * colTotal o j / grandTotal o

/-- Degrees of freedom of the independence test: `(R-1)(C-1)`. -/
def dofTable (R C : ℕ) : ℕ :=
  (R - 1) * (C - 1)

/-- Sign function on `ℚ` (the `np.sign` used by the continuity
correction). -/
def ratSign (x : ℚ) : ℚ :=
  if x < 0 then -1 else if x = 0 then 0 else 1

/-- Yates continuity correction of one observed cell: move the observed
count toward the expected count by `min (1/2) |expected - observed|`. -/
def yatesAdjust (obs e : ℚ) : ℚ :=
  obs + min (1 / 2) |e - obs| * ratSign (e - obs)

/-- The observed table actually fed to the Pearson sum: Yates-adjusted
exactly when the degrees of freedom equal 1 (the `correction and dof == 1`
branch with the notebook's default `correction=True`). -/
def adjustedObs {R C : ℕ} (o : Fin R → Fin C → ℚ) (i : Fin R) (j : Fin C) : ℚ :=
  if dofTable R C = 1 then yatesAdjust (o i j) (expectedTable o i j) else o i j

/-- The statistic returned by `chi2_contingency` with default arguments:
the Pearson sum over the (possibly Yates-adjusted) observed counts. -/
def chi2_contingency_stat {R C : ℕ} (o : Fin R → Fin C → ℚ) : ℚ :=
  ∑ i, ∑ j, (adjustedObs o i j - expectedTable o i j) ^ 2 / expectedTable o i j

/-- The plain Pearson sum `Σ (observed - expected)² / expected` over the
unadjusted observed counts, as the specification's formula states it. -/
def pearsonStat {R C : ℕ} (o : Fin R → Fin C → ℚ) : ℚ :=
  ∑ i, ∑ j, (o i j - expectedTable o i j) ^ 2 / expectedTable o i j

/-- Sum of the raw residuals `observed - expected` over all cells. -/
def rawResidualSum {R C : ℕ} (o : Fin R → Fin C → ℚ) : ℚ :=
  ∑ i, ∑ j, (o i j - expectedTable o i j)

/-- Sum of the standardized residuals
`(observed - expected) / sqrt expected` over all cells (chi_squared.ipynb
line 335).  The notebook's `pow(0.5)` is embedded by `Rat.sqrt`, which is
the exact square root whenever the expected counts are squares of
rationals, as they are at every input this development evaluates it on. -/
def stdResidualSum {R C : ℕ} (o : Fin R → Fin C → ℚ) : ℚ :=
  ∑ i, ∑ j, (o i j - expectedTable o i j) / Rat.sqrt (expectedTable o i j)


/-! ## Claims C1, C4, C9: the independence test statistic and residuals -/

/-- Concrete 3x2 table used as a witness input. -/
def o3 : Fin 3 → Fin 2 → ℚ :=
  ![![1, 2], ![3, 4], ![5, 6]]

/-- Concrete 2x2 table on which the Yates continuity correction changes
the statistic. -/
def oYates : Fin 2 → Fin 2 → ℚ :=
  ![![1, 2], ![3, 4]]

/-- Concrete 2x2 table (row totals 500 and 4500, column totals 1000 and
4000, all expected counts perfect squares) on which the standardized
residual sum is far from 0. -/
def oBig : Fin 2 → Fin 2 → ℚ :=
  ![![500, 0], ![500, 4000]]


/-! ## Numeric model of the goodness-of-fit test

The notebook builds the expected counts itself
(`expected = expected_dist * observed.sum()`, chi_squared.ipynb line 439)
and calls `chisquare(f_obs=observed, f_exp=expected)` (line 491), which
computes `Σ (observed - expected)² / expected` and derives its p-value
from a chi-squared distribution with `length - 1` degrees of freedom
(`ddof = 0`).  The chi-squared survival function is abstracted as a
parameter. -/

/-- The expected counts the goodness-of-fit section constructs:
`expected[i] = expected_proportions[i] * sum(observed)`. -/
def gofExpected {n : ℕ} (props obs : Fin n → ℚ) (i : Fin n) : ℚ :=
  props i * ∑ j, obs j

/-- The `chisquare` statistic: `Σ (observed[i] - expected[i])² / expected[i]`. -/
def chisquareStat {n : ℕ} (obs e : Fin n → ℚ) : ℚ :=
  ∑ i, (obs i - e i) ^ 2 / e i

/-- Result of a goodness-of-fit test: statistic, degrees of freedom, and
the p-value obtained from the trusted chi-squared survival function. -/
structure GofResult where
  statistic : ℚ
  degreesOfFreedom : ℕ
  pvalue : ℚ
deriving DecidableEq

/-- The `chisquare` call: statistic, `length - 1` degrees of freedom, and
upper-tail p-value via the abstract survival function `chi2sf df x`. -/
def chisquare (chi2sf : ℕ → ℚ → ℚ) {n : ℕ} (obs e : Fin n → ℚ) : GofResult :=
  ⟨chisquareStat obs e, n - 1, chi2sf (n - 1) (chisquareStat obs e)⟩

/-- The goodness-of-fit operation as the notebook composes it: expected
counts from the proportions, then `chisquare` against them. -/
def chi_squared_goodness_of_fit (chi2sf : ℕ → ℚ → ℚ) {n : ℕ}
    (obs props : Fin n → ℚ) : GofResult :=
  chisquare chi2sf obs (gofExpected props obs)

/-! ## Numeric model of one-way ANOVA (`f_oneway`)

The ANOVA notebook calls `f_oneway(group_0, group_1, group_2)`
(chi_squared.ipynb line 1204).  That routine centers all data at the grand
mean and computes the between-group sum of squares through squares of
sums: `ssbn = Σ_g (Σ(g - offset))²/len(g) - (Σ(alldata - offset))²/N`,
`sstot = Σ(alldata - offset)² - (Σ(alldata - offset))²/N`,
`sswn = sstot - ssbn`, `F = (ssbn/(k-1))/(sswn/(N-k))`.  The embedding
translates those formulas; the F survival function used for the p-value is
abstracted as a parameter `fsf dfbn dfwn x`. -/

/-- Mean of a list (`0` for the empty list, as `ℚ` division by zero is
`0`). -/
def lmean (l : List ℚ) : ℚ :=
  l.sum / l.length

/-- Sum of squares of the entries of a list (scipy `_sum_of_squares`). -/
def sumOfSquares (l : List ℚ) : ℚ :=
  (l.map (fun x => x ^ 2)).sum

/-- Square of the sum of the entries of a list (scipy `square_of_sums`). -/
def squareOfSums (l : List ℚ) : ℚ :=
  l.sum ^ 2

/-- Result of an F-ratio test: statistic, the two degrees of freedom, and
the p-value obtained from the trusted F survival function. -/
structure TestResult where
  statistic : ℚ
  dfBetween : ℕ
  dfWithin : ℕ
  pvalue : ℚ
deriving DecidableEq

/-- Total number of observations `N` (scipy `bign = len(alldata)`,
computed here as the sum of the group sizes). -/
def totalCount (groups : List (List ℚ)) : ℕ :=
  (groups.map List.length).sum

/-- The scipy `normalized_ss` term: `(Σ(alldata - offset))² / N` with
`offset` the grand mean. -/
def fNormalizedSS (groups : List (List ℚ)) : ℚ :=
  squareOfSums (groups.flatten.map (fun x => x - lmean groups.flatten)) /
    (totalCount groups : ℚ)

/-- The scipy `sstot` term: `Σ(alldata - offset)² - normalized_ss`. -/
def fSstot (groups : List (List ℚ)) : ℚ :=
  sumOfSquares (groups.flatten.map (fun x => x - lmean groups.flatten)) -
    fNormalizedSS groups

/-- The scipy `ssbn` term:
`Σ_g (Σ(g - offset))²/len(g) - normalized_ss`. -/
def fSsbn (groups : List (List ℚ)) : ℚ :=
  (groups.map (fun g =>
      squareOfSums (g.map (fun x => x - lmean groups.flatten)) /
        (g.length : ℚ))).sum -
    fNormalizedSS groups

/-- The scipy `sswn` term: `sstot - ssbn`. -/
def fSswn (groups : List (List ℚ)) : ℚ :=
  fSstot groups - fSsbn groups

/-- Between-group degrees of freedom `k - 1`. -/
def fDfbn (groups : List (List ℚ)) : ℕ :=
  groups.length - 1

/-- Within-group degrees of freedom `N - k`. -/
def fDfwn (groups : List (List ℚ)) : ℕ :=
  totalCount groups - groups.length

/-- The F statistic exactly as `f_oneway` computes it:
`msb / msw = (ssbn/dfbn)/(sswn/dfwn)`. -/
def fStatistic (groups : List (List ℚ)) : ℚ :=
  (fSsbn groups / (fDfbn groups : ℚ)) / (fSswn groups / (fDfwn groups : ℚ))

/-- The `f_oneway` call: F statistic, both degrees of freedom, and the
upper-tail p-value via the abstract F survival function. -/
def f_oneway (fsf : ℕ → ℕ → ℚ → ℚ) (groups : List (List ℚ)) : TestResult :=
  ⟨fStatistic groups, fDfbn groups, fDfwn groups,
    fsf (fDfbn groups) (fDfwn groups) (fStatistic groups)⟩

/-- Textbook between-group sum of squares
`Σ_g n_g · (mean_g - grand_mean)²`, written from the specification's
formula to compare the code against. -/
def ssBetween (groups : List (List ℚ)) : ℚ :=
  (groups.map (fun g =>
      (g.length : ℚ) * (lmean g - lmean groups.flatten) ^ 2)).sum

/-- Textbook within-group sum of squares `Σ_g Σ_{x in g} (x - mean_g)²`,
written from the specification's formula to compare the code against. -/
def ssWithin (groups : List (List ℚ)) : ℚ :=
  (groups.map (fun g => (g.map (fun x => (x - lmean g) ^ 2)).sum)).sum

/-! ## Numeric model of Levene's test

The notebooks call `levene(...)` with default arguments, i.e. with
`center='median'` (the Brown-Forsythe variant).  That routine replaces
each observation by `Z_ij = |x_ij - median(group_i)|` and computes
`W = ((N-k) · Σ_i n_i (Z̄_i - Z̄)²) / ((k-1) · Σ_i Σ_j (Z_ij - Z̄_i)²)`
with `Z̄` the weighted grand mean of the `Z_ij`, and derives the p-value
from the F distribution with `(k-1, N-k)` degrees of freedom. -/

/-- Insert a value into a sorted list of rationals. -/
def insertSortedQ (x : ℚ) : List ℚ → List ℚ
  | [] => [x]
  | y :: ys => if x ≤ y then x :: y :: ys else y :: insertSortedQ x ys

/-- Insertion sort of a list of rationals. -/
def sortQ : List ℚ → List ℚ
  | [] => []
  | x :: xs => insertSortedQ x (sortQ xs)

/-- Median in the sense of `np.median`: middle element of the sorted list
for odd length, average of the two middle elements for even length. -/
def lmedian (l : List ℚ) : ℚ :=
  if l.length % 2 = 1 then (sortQ l).getD (l.length / 2) 0
  else ((sortQ l).getD (l.length / 2 - 1) 0 + (sortQ l).getD (l.length / 2) 0) / 2

/-- The transformed observations of Levene's test: each observation
replaced by its absolute deviation from its group's center. -/
def leveneZ (center : List ℚ → ℚ) (groups : List (List ℚ)) :
    List (List ℚ) :=
  groups.map (fun g => g.map (fun x => |x - center g|))

/-- The weighted grand mean `Zbar = Σ_i Z̄_i n_i / N` of the transformed
observations. -/
def leveneZbar (center : List ℚ → ℚ) (groups : List (List ℚ)) : ℚ :=
  (((leveneZ center groups).map (fun zi => lmean zi * (zi.length : ℚ))).sum) /
    (totalCount groups : ℚ)

/-- The `levene` call: the W statistic
`((N-k) · Σ n_i (Z̄_i - Zbar)²) / ((k-1) · Σ_i Σ_j (Z_ij - Z̄_i)²)`, the
`(k-1, N-k)` degrees of freedom, and the upper-tail p-value via the
abstract F survival function. -/
def levene (fsf : ℕ → ℕ → ℚ → ℚ) (center : List ℚ → ℚ)
    (groups : List (List ℚ)) : TestResult :=
  ⟨(((totalCount groups : ℚ) - (groups.length : ℚ)) *
        (((leveneZ center groups).map (fun zi =>
            (zi.length : ℚ) * (lmean zi - leveneZbar center groups) ^ 2)).sum)) /
      (((groups.length : ℚ) - 1) *
        (((leveneZ center groups).map (fun zi =>
            (zi.map (fun v => (v - lmean zi) ^ 2)).sum)).sum)),
    groups.length - 1, totalCount groups - groups.length,
    fsf (groups.length - 1) (totalCount groups - groups.length)
      ((((totalCount groups : ℚ) - (groups.length : ℚ)) *
          (((leveneZ center groups).map (fun zi =>
              (zi.length : ℚ) * (lmean zi - leveneZbar center groups) ^ 2)).sum)) /
        (((groups.length : ℚ) - 1) *
          (((leveneZ center groups).map (fun zi =>
              (zi.map (fun v => (v - lmean zi) ^ 2)).sum)).sum)))⟩

/-! ## Model of the two-sample t-test

The notebooks call scipy `ttest_ind(group_2, group_1, equal_var=False)`
and halve the two-tailed p-value by hand, branching on the sign of the
observed t statistic (src/unnamed/part_000 lines 724-728).  The
specification instead defines an engine operation `t_test_two_sample`
(§4) that takes the tails as a parameter, classifies numeric edge cases
such as a zero-variance group as `InvalidInputError` (§7), and takes the
one-tailed expected direction as an explicit caller-supplied parameter
rather than inferring it (§9).  No such function exists in the sources,
so it is modelled from the specification below; the notebook's halving
branch is embedded separately for comparison. -/

/-- Caller-supplied expected direction of a one-tailed test. -/
inductive Direction
  | positive
  | negative
deriving DecidableEq

/-- Number of tails of a t-test. -/
inductive Tails
  | one
  | two
deriving DecidableEq

/-- The single error kind of the engine (`InvalidInputError`). -/
inductive StatError
  | invalidInput
deriving DecidableEq

/-- Result of a t-test: statistic, (possibly fractional) degrees of
freedom, and p-value. -/
structure TResult where
  statistic : ℚ
  degreesOfFreedom : ℚ
  pvalue : ℚ
deriving DecidableEq

/-- Unbiased sample variance (`ddof = 1`, as scipy's t-test uses). -/
def sampleVariance (l : List ℚ) : ℚ :=
  (l.map (fun x => (x - lmean l) ^ 2)).sum / ((l.length : ℚ) - 1)

/-- The notebook's one-tailed halving branch (src/unnamed/part_000 lines
724-728): halve the two-tailed p-value when the observed t statistic is
positive, otherwise take the complement of the half. -/
def pOneTailedNotebook (tcdf : ℚ → ℚ) (t : ℚ) : ℚ :=
  if 0 < t then 2 * (1 - tcdf |t|) / 2 else 1 - 2 * (1 - tcdf |t|) / 2

/-- Modelled from the spec: the one-tailed p-value of `t_test_two_sample`
(§4: "direction determined by caller-supplied expected sign;
p = CDF_t(t, df) or 1 - CDF_t(t, df) accordingly"); the sources only halve
a two-tailed p-value inline, branching on the observed sign. -/
def pOneTailed (tcdf : ℚ → ℚ) (d : Direction) (t : ℚ) : ℚ :=
  match d with
  | Direction.positive => 1 - tcdf t
  | Direction.negative => tcdf t

/-- Modelled from the spec: `t_test_two_sample` (§4) with the §7 rule that
degenerate and zero-variance groups raise `InvalidInputError` and the §9
explicit expected-direction parameter.  No such engine function exists in
the sources (the notebooks call scipy `ttest_ind`, which returns NaN on
zero-variance input instead of raising).  The square root and the t CDF
are abstracted as parameters `sqrtQ` and `tcdf t df`; over `ℚ` no NaN or
infinity exists, so every `ok` result is a finite `TResult`. -/
def t_test_two_sample (sqrtQ : ℚ → ℚ) (tcdf : ℚ → ℚ → ℚ) (a b : List ℚ)
    (equalVariance : Bool) (tails : Tails) (d : Direction) :
    Except StatError TResult :=
  if a.length < 2 ∨ b.length < 2 then Except.error StatError.invalidInput
  else if sampleVariance a = 0 ∨ sampleVariance b = 0 then
    Except.error StatError.invalidInput
  else
    let na : ℚ := a.length
    let nb : ℚ := b.length
    let va := sampleVariance a
    let vb := sampleVariance b
    let df : ℚ :=
      if equalVariance then na + nb - 2
      else (va / na + vb / nb) ^ 2 /
        ((va / na) ^ 2 / (na - 1) + (vb / nb) ^ 2 / (nb - 1))
    let se : ℚ :=
      if equalVariance then
        sqrtQ ((((na - 1) * va + (nb - 1) * vb) / (na + nb - 2)) *
          (1 / na + 1 / nb))
      else sqrtQ (va / na + vb / nb)
    let t := (lmean a - lmean b) / se
    let p :=
      match tails with
      | Tails.two => 2 * (1 - tcdf |t| df)
      | Tails.one => pOneTailed (fun x => tcdf x df) d t
    Except.ok ⟨t, df, p⟩

/-! ## Concrete inputs used by witnesses -/

/-- Two groups of two observations each, with distinct means and nonzero
within-group variance. -/
def wGroups : List (List ℚ) := [[0, 2], [1, 3]]

/-- Two groups of three observations each, used for the Levene witness. -/
def wGroupsL : List (List ℚ) := [[0, 2, 7], [1, 3, 4]]

/-- The observed sex counts of the goodness-of-fit concrete scenario. -/
def wObs : Fin 2 → ℚ := ![725, 193]

/-- Uniform expected proportions for the goodness-of-fit scenario. -/
def wProps : Fin 2 → ℚ := ![1 / 2, 1 / 2]

/-- Trivial F survival function used to instantiate witnesses. -/
def zeroFsf : ℕ → ℕ → ℚ → ℚ := fun _ _ _ => 0

/-- Trivial chi-squared survival function used to instantiate witnesses. -/
def zeroChi2sf : ℕ → ℚ → ℚ := fun _ _ => 0

/-- Trivial t CDF used to instantiate witnesses. -/
def zeroTcdf : ℚ → ℚ → ℚ := fun _ _ => 0

/-- Trivial square root used to instantiate witnesses. -/
def zeroSqrt : ℚ → ℚ := fun _ => 0

/-! ## Theorems -/

theorem sum_colTotal {R C : ℕ} (o : Fin R → Fin C → ℚ) :
    ∑ j, colTotal o j = grandTotal o := by
  unfold colTotal grandTotal
  exact Finset.sum_comm

/-- The row totals of a table sum to its grand total. -/
theorem sum_rowTotal {R C : ℕ} (o : Fin R → Fin C → ℚ) :
    ∑ i, rowTotal o i = grandTotal o := rfl

/-- The expected table preserves row totals when the grand total is
nonzero. -/
theorem expectedTable_rowTotal {R C : ℕ} (o : Fin R → Fin C → ℚ)
    (hN : grandTotal o ≠ 0) (i : Fin R) :
    ∑ j, expectedTable o i j = rowTotal o i := by
  unfold expectedTable
  rw [← Finset.sum_div, ← Finset.mul_sum, sum_colTotal, mul_div_assoc,
    div_self hN, mul_one]

/-- The expected table preserves column totals when the grand total is
nonzero. -/
theorem expectedTable_colTotal {R C : ℕ} (o : Fin R → Fin C → ℚ)
    (hN : grandTotal o ≠ 0) (j : Fin C) :
    ∑ i, expectedTable o i j = colTotal o j := by
  unfold expectedTable
  rw [← Finset.sum_div, ← Finset.sum_mul, sum_rowTotal, mul_comm,
    mul_div_assoc, div_self hN, mul_one]


/-- When the expected count is within 1/2 of the observed count, the Yates
adjustment moves the observed count all the way to the expected count. -/
theorem yatesAdjust_of_le (obs e : ℚ) (h : |e - obs| ≤ 1 / 2) :
    yatesAdjust obs e = e := by
  unfold yatesAdjust ratSign
  rcases lt_trichotomy (e - obs) 0 with hlt | heq | hgt
  · rw [if_pos hlt, min_eq_right h, abs_of_neg hlt]
    ring
  · rw [if_neg (not_lt.mpr (le_of_eq heq.symm)), if_pos heq, mul_zero,
      add_zero]
    exact (sub_eq_zero.mp heq).symm
  · rw [if_neg (not_lt.mpr (le_of_lt hgt)), if_neg (ne_of_gt hgt), mul_one,
      min_eq_right h, abs_of_pos hgt]
    ring

/-- C1 (amended): For every ContingencyTable with R ≥ 2 rows, C ≥ 2
columns, and all row and column totals positive, `chi_squared_independence`
(the notebook's `chi2_contingency` with default arguments) computes
expected counts `Expected[i,j] = row_total[i] * col_total[j] / N`, and
whenever the table is not 2x2 its statistic is the Pearson sum
`Σ (observed - expected)² / expected` over all cells.  (For 2x2 tables the
default continuity correction first moves each observed count toward its
expected count by `min(0.5, |observed - expected|)`, so the returned
statistic is the Pearson sum over the adjusted counts instead.) -/
theorem chi2_contingency_expected_and_pearson {R C : ℕ}
    (o : Fin R → Fin C → ℚ) (hR : 2 ≤ R) (hC : 2 ≤ C)
    (hrow : ∀ i, 0 < rowTotal o i) (hcol : ∀ j, 0 < colTotal o j)
    (h22 : ¬(R = 2 ∧ C = 2)) :
    (∀ i j, expectedTable o i j = rowTotal o i * colTotal o j / grandTotal o) ∧
    chi2_contingency_stat o = pearsonStat o := by
  refine ⟨fun i j => rfl, ?_⟩
  have hdof : dofTable R C ≠ 1 := by
    intro h
    simp only [dofTable] at h
    have h1 := Nat.eq_one_of_mul_eq_one_right h
    have h2 := Nat.eq_one_of_mul_eq_one_left h
    exact h22 ⟨by omega, by omega⟩
  unfold chi2_contingency_stat pearsonStat adjustedObs
  simp only [if_neg hdof]

/-- Witness for C1's theorem at the 3x2 table `o3`. -/
theorem chi2_contingency_expected_and_pearson_witness :
    ((2 ≤ 3 ∧ 2 ≤ 2) ∧ ¬(3 = 2 ∧ 2 = 2)) ∧
    ((∀ i j, expectedTable o3 i j = rowTotal o3 i * colTotal o3 j / grandTotal o3) ∧
      chi2_contingency_stat o3 = pearsonStat o3) :=
  ⟨by decide,
    chi2_contingency_expected_and_pearson o3 (by norm_num) (by norm_num)
      (by intro i; fin_cases i <;>
        norm_num [rowTotal, o3, Fin.sum_univ_two])
      (by intro j; fin_cases j <;>
        norm_num [colTotal, o3, Fin.sum_univ_succ])
      (by decide)⟩

/-- C1 counterexample: on the 2x2 table `oYates` (positive row and column
totals, every `|observed - expected| = 1/5 < 1/2`), the statistic computed
by `chi2_contingency` with default arguments is 0, while the plain Pearson
sum is 5/63; so for 2x2 tables the returned statistic is not the Pearson
sum the claim states. -/
theorem chi2_contingency_yates_counterexample :
    (0 < rowTotal oYates 0 ∧ 0 < rowTotal oYates 1 ∧
      0 < colTotal oYates 0 ∧ 0 < colTotal oYates 1) ∧
    chi2_contingency_stat oYates = 0 ∧
    pearsonStat oYates = 5 / 63 ∧
    chi2_contingency_stat oYates ≠ pearsonStat oYates := by
  have he00 : expectedTable oYates 0 0 = 6 / 5 := by
    norm_num [expectedTable, rowTotal, colTotal, grandTotal, oYates,
      Fin.sum_univ_two]
  have he01 : expectedTable oYates 0 1 = 9 / 5 := by
    norm_num [expectedTable, rowTotal, colTotal, grandTotal, oYates,
      Fin.sum_univ_two]
  have he10 : expectedTable oYates 1 0 = 14 / 5 := by
    norm_num [expectedTable, rowTotal, colTotal, grandTotal, oYates,
      Fin.sum_univ_two]
  have he11 : expectedTable oYates 1 1 = 21 / 5 := by
    norm_num [expectedTable, rowTotal, colTotal, grandTotal, oYates,
      Fin.sum_univ_two]
  have hdof : dofTable 2 2 = 1 := rfl
  have hadj : ∀ i j, adjustedObs oYates i j = expectedTable oYates i j := by
    intro i j
    unfold adjustedObs
    rw [if_pos hdof]
    apply yatesAdjust_of_le
    fin_cases i <;> fin_cases j <;>
      norm_num [expectedTable, rowTotal, colTotal, grandTotal, oYates,
        Fin.sum_univ_two, abs, max_def]
  have hstat : chi2_contingency_stat oYates = 0 := by
    unfold chi2_contingency_stat
    apply Finset.sum_eq_zero
    intro i _
    apply Finset.sum_eq_zero
    intro j _
    rw [hadj i j]
    simp
  have hpears : pearsonStat oYates = 5 / 63 := by
    simp only [pearsonStat, Fin.sum_univ_two]
    rw [he00, he01, he10, he11]
    norm_num [oYates]
  refine ⟨⟨?_, ?_, ?_, ?_⟩, hstat, hpears, ?_⟩
  · norm_num [rowTotal, oYates, Fin.sum_univ_two]
  · norm_num [rowTotal, oYates, Fin.sum_univ_two]
  · norm_num [colTotal, oYates, Fin.sum_univ_two]
  · norm_num [colTotal, oYates, Fin.sum_univ_two]
  · rw [hstat, hpears]; norm_num

/-- C9: For every ContingencyTable with non-negative cells, the statistic
returned by `chi_squared_independence` is non-negative, and it equals 0
whenever the observed table equals the expected table exactly. -/
theorem chi2_contingency_stat_nonneg {R C : ℕ} (o : Fin R → Fin C → ℚ)
    (h : ∀ i j, 0 ≤ o i j) :
    0 ≤ chi2_contingency_stat o ∧
      ((∀ i j, o i j = expectedTable o i j) → chi2_contingency_stat o = 0) := by
  have he : ∀ i j, 0 ≤ expectedTable o i j := by
    intro i j
    unfold expectedTable
    apply div_nonneg
    · apply mul_nonneg
      · exact Finset.sum_nonneg fun j' _ => h i j'
      · exact Finset.sum_nonneg fun i' _ => h i' j
    · exact Finset.sum_nonneg fun i' _ =>
        Finset.sum_nonneg fun j' _ => h i' j'
  constructor
  · apply Finset.sum_nonneg; intro i _
    apply Finset.sum_nonneg; intro j _
    exact div_nonneg (sq_nonneg _) (he i j)
  · intro heq
    apply Finset.sum_eq_zero; intro i _
    apply Finset.sum_eq_zero; intro j _
    have hzero : expectedTable o i j - o i j = 0 := by
      rw [heq i j]; ring
    have hadj : adjustedObs o i j = o i j := by
      unfold adjustedObs yatesAdjust
      split
      · rw [hzero]; norm_num [ratSign]
      · rfl
    rw [hadj, heq i j]
    simp

/-- Witness for C9's theorem at the 2x2 table `oYates`. -/
theorem chi2_contingency_stat_nonneg_witness :
    (∀ i j, 0 ≤ oYates i j) ∧
    (0 ≤ chi2_contingency_stat oYates ∧
      ((∀ i j, oYates i j = expectedTable oYates i j) →
        chi2_contingency_stat oYates = 0)) :=
  ⟨by intro i j; fin_cases i <;> fin_cases j <;> norm_num [oYates],
    chi2_contingency_stat_nonneg oYates
      (by intro i j; fin_cases i <;> fin_cases j <;> norm_num [oYates])⟩

/-- C4 (amended): when the grand total is nonzero, the independence-test
expected table preserves the row and column totals of the observed table,
and consequently the matrix of raw residuals `observed - expected` sums to
exactly 0 over all cells.  (The standardized residuals
`(observed - expected)/sqrt(expected)` need not sum to approximately 0;
see the counterexample below.) -/
theorem residuals_raw_sum_zero {R C : ℕ} (o : Fin R → Fin C → ℚ)
    (hN : grandTotal o ≠ 0) :
    (∀ i, ∑ j, expectedTable o i j = rowTotal o i) ∧
    (∀ j, ∑ i, expectedTable o i j = colTotal o j) ∧
    rawResidualSum o = 0 := by
  refine ⟨expectedTable_rowTotal o hN, expectedTable_colTotal o hN, ?_⟩
  unfold rawResidualSum
  apply Finset.sum_eq_zero
  intro i _
  rw [Finset.sum_sub_distrib, expectedTable_rowTotal o hN i]
  exact sub_self _

/-- Witness for C4's amended theorem at the 2x2 table `oYates`. -/
theorem residuals_raw_sum_zero_witness :
    grandTotal oYates ≠ 0 ∧
    ((∀ i, ∑ j, expectedTable oYates i j = rowTotal oYates i) ∧
      (∀ j, ∑ i, expectedTable oYates i j = colTotal oYates j) ∧
      rawResidualSum oYates = 0) :=
  ⟨by norm_num [grandTotal, oYates, Fin.sum_univ_two],
    residuals_raw_sum_zero oYates
      (by norm_num [grandTotal, oYates, Fin.sum_univ_two])⟩

/-- C4 counterexample: on the table `oBig` all four expected counts are
positive perfect squares (so `Rat.sqrt` is their exact square root), the
expected table preserves the row and column totals (the raw residual sum
is 0), yet the standardized residual sum is 40/3 ≥ 13 — not approximately
0. -/
theorem std_residual_sum_counterexample :
    (0 < expectedTable oBig 0 0 ∧ 0 < expectedTable oBig 0 1 ∧
      0 < expectedTable oBig 1 0 ∧ 0 < expectedTable oBig 1 1) ∧
    (Rat.sqrt (expectedTable oBig 0 0) ^ 2 = expectedTable oBig 0 0 ∧
      Rat.sqrt (expectedTable oBig 0 1) ^ 2 = expectedTable oBig 0 1 ∧
      Rat.sqrt (expectedTable oBig 1 0) ^ 2 = expectedTable oBig 1 0 ∧
      Rat.sqrt (expectedTable oBig 1 1) ^ 2 = expectedTable oBig 1 1) ∧
    rawResidualSum oBig = 0 ∧
    stdResidualSum oBig = 40 / 3 ∧
    (13 : ℚ) ≤ stdResidualSum oBig := by
  have he00 : expectedTable oBig 0 0 = 100 := by
    norm_num [expectedTable, rowTotal, colTotal, grandTotal, oBig,
      Fin.sum_univ_two]
  have he01 : expectedTable oBig 0 1 = 400 := by
    norm_num [expectedTable, rowTotal, colTotal, grandTotal, oBig,
      Fin.sum_univ_two]
  have he10 : expectedTable oBig 1 0 = 900 := by
    norm_num [expectedTable, rowTotal, colTotal, grandTotal, oBig,
      Fin.sum_univ_two]
  have he11 : expectedTable oBig 1 1 = 3600 := by
    norm_num [expectedTable, rowTotal, colTotal, grandTotal, oBig,
      Fin.sum_univ_two]
  have hstd : stdResidualSum oBig = 40 / 3 := by
    simp only [stdResidualSum, Fin.sum_univ_two]
    rw [he00, he01, he10, he11]
    norm_num [oBig, Rat.sqrt]
  have hraw : rawResidualSum oBig = 0 := by
    simp only [rawResidualSum, Fin.sum_univ_two]
    rw [he00, he01, he10, he11]
    norm_num [oBig]
  refine ⟨⟨?_, ?_, ?_, ?_⟩, ⟨?_, ?_, ?_, ?_⟩, hraw, hstd, ?_⟩
  · rw [he00]; norm_num
  · rw [he01]; norm_num
  · rw [he10]; norm_num
  · rw [he11]; norm_num
  · rw [he00]; norm_num [Rat.sqrt]
  · rw [he01]; norm_num [Rat.sqrt]
  · rw [he10]; norm_num [Rat.sqrt]
  · rw [he11]; norm_num [Rat.sqrt]
  · rw [hstd]; norm_num


/-! ## Claim theorems for the dataflow claims -/

/-- C2: In the two-tailed t-test section, the Welch t-test the spec
describes as comparing malignant vs benign tumor mean-radius groups is
invoked as `ttest_ind(group_2, group_1, equal_var=False)`, where `group_2`
is the diabetes-target sample defined in the earlier one-tailed section
and is never rebound to breast-cancer data; so every top-to-bottom
execution compares the diabetes sex-2 group against the benign group, and
the malignant group `group_0` is never passed to the test. -/
theorem two_tailed_ttest_uses_diabetes_group :
    tTestCalls =
      [ ⟨CallKind.levene, some Sample.diabetesSex1, some Sample.diabetesSex2⟩,
        ⟨CallKind.ttest, some Sample.diabetesSex2, some Sample.diabetesSex1⟩,
        ⟨CallKind.levene, some Sample.bcMalignant, some Sample.bcBenign⟩,
        ⟨CallKind.ttest, some Sample.diabetesSex2, some Sample.bcBenign⟩ ] ∧
    tTestCalls.all
      (fun c => c.kind != CallKind.ttest ||
        (c.arg1 != some Sample.bcMalignant &&
         c.arg2 != some Sample.bcMalignant)) = true := by
  constructor
  · rfl
  · rfl

/-- C10: In the goodness-of-fit section, the expected-frequency assumption
check computes its percent-of-counts-below-5 from the variable
`frequencies`, which still holds the flattened expected table of the
earlier independence test rather than the goodness-of-fit expected counts;
only the all-greater-than-one check reads the goodness-of-fit `expected`.
The second recorded check (the goodness-of-fit one) therefore reads the
goodness-of-fit expected table for its first test but the flattened
independence expected table for the percent-below-5 figure. -/
theorem gof_check_reads_stale_frequencies :
    chiChecks.get? 1 =
      some ⟨some CVal.gofExpected, some (CVal.flat CVal.indepExpected)⟩ ∧
    chiChecks =
      [ ⟨some (CVal.flat CVal.indepExpected), some (CVal.flat CVal.indepExpected)⟩,
        ⟨some CVal.gofExpected, some (CVal.flat CVal.indepExpected)⟩,
        ⟨some (CVal.flat CVal.homExpected), some (CVal.flat CVal.homExpected)⟩ ] := by
  constructor
  · rfl
  · rfl


/-! ## Claim C7: the goodness-of-fit test -/

/-- C7: For every observed count sequence of length ≥ 2 with all counts
≥ 0 and expected proportions summing to 1, `chi_squared_goodness_of_fit`
uses `expected[i] = expected_proportions[i] * sum(observed)`, returns the
statistic `Σ (observed[i] - expected[i])² / expected[i]`, and reports
`length - 1` degrees of freedom; moreover its expected counts sum to the
observed total. -/
theorem chi_squared_goodness_of_fit_spec (chi2sf : ℕ → ℚ → ℚ) {n : ℕ}
    (obs props : Fin n → ℚ) (hn : 2 ≤ n) (hobs : ∀ i, 0 ≤ obs i)
    (hprops : ∑ i, props i = 1) :
    (∀ i, gofExpected props obs i = props i * ∑ j, obs j) ∧
    (chi_squared_goodness_of_fit chi2sf obs props).statistic =
      ∑ i, (obs i - gofExpected props obs i) ^ 2 / gofExpected props obs i ∧
    (chi_squared_goodness_of_fit chi2sf obs props).degreesOfFreedom = n - 1 ∧
    ∑ i, gofExpected props obs i = ∑ i, obs i := by
  refine ⟨fun i => rfl, rfl, rfl, ?_⟩
  unfold gofExpected
  rw [← Finset.sum_mul, hprops, one_mul]

/-- Witness for C7's theorem at the concrete sex counts `[725, 193]` with
uniform expected proportions. -/
theorem chi_squared_goodness_of_fit_spec_witness :
    (2 ≤ 2 ∧ (∀ i, 0 ≤ wObs i) ∧ ∑ i, wProps i = 1) ∧
    ((∀ i, gofExpected wProps wObs i = wProps i * ∑ j, wObs j) ∧
      (chi_squared_goodness_of_fit zeroChi2sf wObs wProps).statistic =
        ∑ i, (wObs i - gofExpected wProps wObs i) ^ 2 /
          gofExpected wProps wObs i ∧
      (chi_squared_goodness_of_fit zeroChi2sf wObs wProps).degreesOfFreedom =
        2 - 1 ∧
      ∑ i, gofExpected wProps wObs i = ∑ i, wObs i) :=
  ⟨⟨by norm_num,
      by intro i; fin_cases i <;> norm_num [wObs],
      by norm_num [wProps, Fin.sum_univ_two]⟩,
    chi_squared_goodness_of_fit_spec zeroChi2sf wObs wProps (by norm_num)
      (by intro i; fin_cases i <;> norm_num [wObs])
      (by norm_num [wProps, Fin.sum_univ_two])⟩

/-! ## List algebra for the ANOVA claims -/

/-- Summing `x - c` over a list subtracts `length * c` from the sum. -/
theorem sum_map_sub_const (l : List ℚ) (c : ℚ) :
    (l.map (fun x => x - c)).sum = l.sum - l.length * c := by
  induction l with
  | nil => simp
  | cons x xs ih =>
      simp only [List.map_cons, List.sum_cons, List.length_cons, ih]
      push_cast
      ring

/-- Summing `(x - c)²` over a list, expanded. -/
theorem sum_map_sq_sub_const (l : List ℚ) (c : ℚ) :
    (l.map (fun x => (x - c) ^ 2)).sum =
      sumOfSquares l - 2 * c * l.sum + l.length * c ^ 2 := by
  induction l with
  | nil => simp [sumOfSquares]
  | cons x xs ih =>
      simp only [List.map_cons, List.sum_cons, List.length_cons, ih,
        sumOfSquares]
      push_cast
      ring

/-- For a non-empty list, `length * mean = sum`. -/
theorem length_mul_lmean (l : List ℚ) (h : l ≠ []) :
    (l.length : ℚ) * lmean l = l.sum := by
  have h0 : (l.length : ℚ) ≠ 0 :=
    Nat.cast_ne_zero.mpr (Nat.pos_iff_ne_zero.mp (List.length_pos.mpr h))
  rw [lmean, mul_comm, div_mul_cancel₀ _ h0]

/-- Centering a non-empty list at its own mean gives sum 0. -/
theorem sum_center_eq_zero (l : List ℚ) (h : l ≠ []) :
    (l.map (fun x => x - lmean l)).sum = 0 := by
  rw [sum_map_sub_const, length_mul_lmean l h, sub_self]

/-- Shift decomposition: for a non-empty group,
`Σ (x - c)² = Σ (x - mean)² + n·(mean - c)²`. -/
theorem sum_sq_sub_decomp (g : List ℚ) (h : g ≠ []) (c : ℚ) :
    (g.map (fun x => (x - c) ^ 2)).sum =
      (g.map (fun x => (x - lmean g) ^ 2)).sum +
        (g.length : ℚ) * (lmean g - c) ^ 2 := by
  have hn := length_mul_lmean g h
  rw [sum_map_sq_sub_const, sum_map_sq_sub_const]
  linear_combination (2 * c - 2 * lmean g) * hn

/-- Square-of-sums form of one group's between contribution:
`(Σ(g - c))² / n = n·(mean_g - c)²` for non-empty `g`. -/
theorem squareOfSums_center (g : List ℚ) (h : g ≠ []) (c : ℚ) :
    squareOfSums (g.map (fun x => x - c)) / (g.length : ℚ) =
      (g.length : ℚ) * (lmean g - c) ^ 2 := by
  have h0 : (g.length : ℚ) ≠ 0 :=
    Nat.cast_ne_zero.mpr (Nat.pos_iff_ne_zero.mp (List.length_pos.mpr h))
  rw [squareOfSums, sum_map_sub_const, ← length_mul_lmean g h]
  field_simp
  ring

/-- Distributing a list sum over pointwise addition of two maps. -/
theorem sum_map_add_distrib (l : List (List ℚ)) (f g : List ℚ → ℚ) :
    (l.map (fun x => f x + g x)).sum = (l.map f).sum + (l.map g).sum := by
  induction l with
  | nil => simp
  | cons x xs ih =>
      simp only [List.map_cons, List.sum_cons, ih]
      ring

/-- A flatten of non-empty groups is non-empty. -/
theorem flatten_ne_nil (groups : List (List ℚ)) (hk : groups ≠ [])
    (hne : ∀ g ∈ groups, g ≠ []) : groups.flatten ≠ [] := by
  intro hnil
  rcases groups with _ | ⟨g, gs⟩
  · exact hk rfl
  · exact hne g (by simp) (List.flatten_eq_nil_iff.mp hnil g (by simp))

/-- `totalCount` is the length of the flattened data. -/
theorem totalCount_eq_length_flatten (groups : List (List ℚ)) :
    totalCount groups = groups.flatten.length :=
  (List.length_flatten groups).symm

/-- The sum of squares of the centered flattened data splits into the
per-group shifted sums. -/
theorem sumOfSquares_flatten_map (groups : List (List ℚ)) (c : ℚ) :
    sumOfSquares (groups.flatten.map (fun x => x - c)) =
      (groups.map (fun g => (g.map (fun x => (x - c) ^ 2)).sum)).sum := by
  induction groups with
  | nil => simp [sumOfSquares]
  | cons g gs ih =>
      simp only [List.flatten_cons, List.map_append, sumOfSquares,
        List.sum_append, List.map_cons, List.sum_cons, List.map_map] at ih ⊢
      rw [← ih]
      rfl

/-- scipy's `normalized_ss` vanishes: the data is centered at its own
grand mean. -/
theorem fNormalizedSS_eq_zero (groups : List (List ℚ)) (hk : groups ≠ [])
    (hne : ∀ g ∈ groups, g ≠ []) : fNormalizedSS groups = 0 := by
  unfold fNormalizedSS squareOfSums
  rw [sum_center_eq_zero groups.flatten (flatten_ne_nil groups hk hne)]
  norm_num

/-- scipy's `ssbn` equals the textbook between-group sum of squares. -/
theorem fSsbn_eq_ssBetween (groups : List (List ℚ)) (hk : groups ≠ [])
    (hne : ∀ g ∈ groups, g ≠ []) : fSsbn groups = ssBetween groups := by
  unfold fSsbn ssBetween
  rw [fNormalizedSS_eq_zero groups hk hne, sub_zero]
  congr 1
  apply List.map_congr_left
  intro g hg
  exact squareOfSums_center g (hne g hg) (lmean groups.flatten)

/-- scipy's `sstot` equals within plus between sums of squares. -/
theorem fSstot_eq (groups : List (List ℚ)) (hk : groups ≠ [])
    (hne : ∀ g ∈ groups, g ≠ []) :
    fSstot groups = ssWithin groups + ssBetween groups := by
  unfold fSstot
  rw [fNormalizedSS_eq_zero groups hk hne, sub_zero,
    sumOfSquares_flatten_map]
  have hper : ∀ g ∈ groups,
      (g.map (fun x => (x - lmean groups.flatten) ^ 2)).sum =
        (g.map (fun x => (x - lmean g) ^ 2)).sum +
          (g.length : ℚ) * (lmean g - lmean groups.flatten) ^ 2 :=
    fun g hg => sum_sq_sub_decomp g (hne g hg) (lmean groups.flatten)
  rw [List.map_congr_left hper, sum_map_add_distrib]
  rfl

/-- scipy's `sswn` equals the textbook within-group sum of squares. -/
theorem fSswn_eq_ssWithin (groups : List (List ℚ)) (hk : groups ≠ [])
    (hne : ∀ g ∈ groups, g ≠ []) : fSswn groups = ssWithin groups := by
  unfold fSswn
  rw [fSstot_eq groups hk hne, fSsbn_eq_ssBetween groups hk hne]
  ring

/-! ## Claim C6: one-way ANOVA -/

/-- C6: For every sequence of k ≥ 2 non-empty groups with total
observation count N and N - k > 0, `anova_one_way` (the notebooks'
`f_oneway`) returns the F statistic
`(SS_between/df_between) / (SS_within/df_within)` with
`df_between = k - 1` and `df_within = N - k`, where
`SS_between = Σ_g n_g·(mean_g - grand_mean)²` and
`SS_within = Σ_g Σ_{x in g} (x - mean_g)²`. -/
theorem f_oneway_spec (fsf : ℕ → ℕ → ℚ → ℚ) (groups : List (List ℚ))
    (hk : 2 ≤ groups.length) (hne : ∀ g ∈ groups, g ≠ [])
    (hdfw : groups.length < totalCount groups) :
    (f_oneway fsf groups).statistic =
      (ssBetween groups / ((groups.length - 1 : ℕ) : ℚ)) /
        (ssWithin groups / ((totalCount groups - groups.length : ℕ) : ℚ)) ∧
    (f_oneway fsf groups).dfBetween = groups.length - 1 ∧
    (f_oneway fsf groups).dfWithin = totalCount groups - groups.length := by
  have hk0 : groups ≠ [] := by
    intro hnil
    rw [hnil] at hk
    simp at hk
  refine ⟨?_, rfl, rfl⟩
  show fStatistic groups = _
  unfold fStatistic fDfbn fDfwn
  rw [fSsbn_eq_ssBetween groups hk0 hne, fSswn_eq_ssWithin groups hk0 hne]

/-- Witness for C6's theorem at the two groups `[[0, 2], [1, 3]]`. -/
theorem f_oneway_spec_witness :
    (2 ≤ wGroups.length ∧ (∀ g ∈ wGroups, g ≠ []) ∧
      wGroups.length < totalCount wGroups) ∧
    ((f_oneway zeroFsf wGroups).statistic =
      (ssBetween wGroups / ((wGroups.length - 1 : ℕ) : ℚ)) /
        (ssWithin wGroups / ((totalCount wGroups - wGroups.length : ℕ) : ℚ)) ∧
    (f_oneway zeroFsf wGroups).dfBetween = wGroups.length - 1 ∧
    (f_oneway zeroFsf wGroups).dfWithin =
      totalCount wGroups - wGroups.length) :=
  ⟨⟨by decide, by decide, by decide⟩,
    f_oneway_spec zeroFsf wGroups (by decide) (by decide) (by decide)⟩

/-! ## Claim C8: Levene's test as ANOVA on transformed data -/

/-- The transformed groups have the same group count. -/
theorem leveneZ_length (center : List ℚ → ℚ) (groups : List (List ℚ)) :
    (leveneZ center groups).length = groups.length := by
  simp [leveneZ]

/-- The transformed groups have the same total observation count. -/
theorem leveneZ_totalCount (center : List ℚ → ℚ) (groups : List (List ℚ)) :
    totalCount (leveneZ center groups) = totalCount groups := by
  unfold totalCount leveneZ
  rw [List.map_map]
  congr 1
  apply List.map_congr_left
  intro g _
  simp

/-- Transformed groups of non-empty groups are non-empty. -/
theorem leveneZ_ne_nil (center : List ℚ → ℚ) (groups : List (List ℚ))
    (hne : ∀ g ∈ groups, g ≠ []) :
    ∀ z ∈ leveneZ center groups, z ≠ [] := by
  intro z hz
  rcases List.mem_map.mp hz with ⟨g, hg, rfl⟩
  intro hnil
  exact hne g hg (List.map_eq_nil_iff.mp hnil)

/-- The weighted mean `Zbar` that `levene` computes is the grand mean of
the transformed observations. -/
theorem leveneZbar_eq_grand (center : List ℚ → ℚ) (groups : List (List ℚ))
    (hne : ∀ g ∈ groups, g ≠ []) :
    leveneZbar center groups = lmean (leveneZ center groups).flatten := by
  have hnum : ((leveneZ center groups).map
        (fun zi => lmean zi * (zi.length : ℚ))).sum =
      ((leveneZ center groups).map List.sum).sum := by
    congr 1
    apply List.map_congr_left
    intro zi hzi
    rw [mul_comm]
    exact length_mul_lmean zi (leveneZ_ne_nil center groups hne zi hzi)
  unfold leveneZbar
  rw [hnum]
  unfold lmean
  rw [List.sum_flatten, ← totalCount_eq_length_flatten, leveneZ_totalCount]

/-- Unconditional field identity used to align the two F expressions. -/
theorem div_mul_align (a b c d : ℚ) :
    (d * a) / (b * c) = (a / b) / (c / d) := by
  rw [div_eq_mul_inv (a / b), inv_div, div_mul_div_comm, mul_comm a d]

/-- C8: For every sequence of groups valid for `anova_one_way` (k ≥ 2
non-empty groups, N - k > 0), `levene_test` (the notebooks' `levene` with
its default median centering, the Brown-Forsythe variant) returns exactly
the TestResult produced by running `anova_one_way` (`f_oneway`) on the
transformed observations, where each observation is replaced by its
absolute deviation from its group's median. -/
theorem levene_eq_f_oneway (fsf : ℕ → ℕ → ℚ → ℚ) (groups : List (List ℚ))
    (hk : 2 ≤ groups.length) (hne : ∀ g ∈ groups, g ≠ [])
    (hdfw : groups.length < totalCount groups) :
    levene fsf lmedian groups = f_oneway fsf (leveneZ lmedian groups) := by
  have hk0 : groups ≠ [] := by
    intro hnil
    rw [hnil] at hk
    simp at hk
  have hzk0 : leveneZ lmedian groups ≠ [] := by
    intro hnil
    rw [leveneZ] at hnil
    exact hk0 (List.map_eq_nil_iff.mp hnil)
  have hzne := leveneZ_ne_nil lmedian groups hne
  have hb : groups.length - 1 = fDfbn (leveneZ lmedian groups) := by
    rw [fDfbn, leveneZ_length]
  have hw : totalCount groups - groups.length =
      fDfwn (leveneZ lmedian groups) := by
    rw [fDfwn, leveneZ_totalCount, leveneZ_length]
  have hcast_b : ((groups.length : ℚ) - 1) =
      ((fDfbn (leveneZ lmedian groups) : ℕ) : ℚ) := by
    rw [← hb, Nat.cast_sub (by omega), Nat.cast_one]
  have hcast_w : ((totalCount groups : ℚ) - (groups.length : ℚ)) =
      ((fDfwn (leveneZ lmedian groups) : ℕ) : ℚ) := by
    rw [← hw, Nat.cast_sub (le_of_lt hdfw)]
  have hstat :
      (((totalCount groups : ℚ) - (groups.length : ℚ)) *
          (((leveneZ lmedian groups).map (fun zi =>
              (zi.length : ℚ) *
                (lmean zi - leveneZbar lmedian groups) ^ 2)).sum)) /
        (((groups.length : ℚ) - 1) *
          (((leveneZ lmedian groups).map (fun zi =>
              (zi.map (fun v => (v - lmean zi) ^ 2)).sum)).sum)) =
      fStatistic (leveneZ lmedian groups) := by
    have hbsum : ((leveneZ lmedian groups).map (fun zi =>
        (zi.length : ℚ) * (lmean zi - leveneZbar lmedian groups) ^ 2)).sum =
        ssBetween (leveneZ lmedian groups) := by
      unfold ssBetween
      congr 1
      apply List.map_congr_left
      intro zi _
      rw [leveneZbar_eq_grand lmedian groups hne]
    have hwsum : ((leveneZ lmedian groups).map (fun zi =>
        (zi.map (fun v => (v - lmean zi) ^ 2)).sum)).sum =
        ssWithin (leveneZ lmedian groups) := rfl
    rw [hbsum, hwsum, hcast_b, hcast_w, div_mul_align]
    unfold fStatistic
    rw [fSsbn_eq_ssBetween _ hzk0 hzne, fSswn_eq_ssWithin _ hzk0 hzne]
  unfold levene f_oneway
  simp only [TestResult.mk.injEq]
  exact ⟨hstat, hb, hw, by rw [hstat, hb, hw]⟩

/-- Witness for C8's theorem at the two groups `[[0, 2, 7], [1, 3, 4]]`. -/
theorem levene_eq_f_oneway_witness :
    (2 ≤ wGroupsL.length ∧ (∀ g ∈ wGroupsL, g ≠ []) ∧
      wGroupsL.length < totalCount wGroupsL) ∧
    levene zeroFsf lmedian wGroupsL =
      f_oneway zeroFsf (leveneZ lmedian wGroupsL) :=
  ⟨⟨by decide, by decide, by decide⟩,
    levene_eq_f_oneway zeroFsf wGroupsL (by decide) (by decide) (by decide)⟩

/-! ## Claims C3 and C5: the two-sample t-test engine -/

/-- The notebook's halving branch always computes the upper-tail
probability: for a symmetric CDF it equals `1 - CDF(t)` in both branches,
so the tested direction is fixed by the code (toward the first argument's
mean being larger), not selected by the caller. -/
theorem pOneTailedNotebook_eq_upper (tcdf : ℚ → ℚ) (t : ℚ)
    (hsym : ∀ x, tcdf (-x) = 1 - tcdf x) :
    pOneTailedNotebook tcdf t = 1 - tcdf t := by
  unfold pOneTailedNotebook
  split
  · rename_i hpos
    rw [abs_of_pos hpos]
    ring
  · rename_i hpos
    rw [abs_of_nonpos (not_lt.mp hpos), hsym t]
    ring

/-- C3: For `t_test_two_sample` with `tails = one`, on every input that
passes the validity guards the one-tailed p-value equals `CDF_t(t, df)` or
`1 - CDF_t(t, df)`, with the choice between the two determined by the
caller-supplied expected-direction parameter (negative direction takes the
lower tail, positive direction the upper tail), not inferred from the
data. -/
theorem t_test_one_tailed_direction (sqrtQ : ℚ → ℚ) (tcdf : ℚ → ℚ → ℚ)
    (a b : List ℚ) (equalVariance : Bool) (d : Direction)
    (hlen : ¬(a.length < 2 ∨ b.length < 2))
    (hvar : ¬(sampleVariance a = 0 ∨ sampleVariance b = 0)) :
    ∃ r, t_test_two_sample sqrtQ tcdf a b equalVariance Tails.one d =
        Except.ok r ∧
      (d = Direction.negative →
        r.pvalue = tcdf r.statistic r.degreesOfFreedom) ∧
      (d = Direction.positive →
        r.pvalue = 1 - tcdf r.statistic r.degreesOfFreedom) := by
  unfold t_test_two_sample
  rw [if_neg hlen, if_neg hvar]
  refine ⟨_, rfl, ?_, ?_⟩ <;> intro hd <;> subst hd <;> simp [pOneTailed]

/-- Witness for C3's theorem at groups `[0, 2]` and `[1, 4]` with the
positive expected direction. -/
theorem t_test_one_tailed_direction_witness :
    (¬([(0 : ℚ), 2].length < 2 ∨ [(1 : ℚ), 4].length < 2)) ∧
    (¬(sampleVariance [(0 : ℚ), 2] = 0 ∨ sampleVariance [(1 : ℚ), 4] = 0)) ∧
    (∃ r, t_test_two_sample zeroSqrt zeroTcdf [(0 : ℚ), 2] [(1 : ℚ), 4]
          false Tails.one Direction.positive = Except.ok r ∧
        (Direction.positive = Direction.negative →
          r.pvalue = zeroTcdf r.statistic r.degreesOfFreedom) ∧
        (Direction.positive = Direction.positive →
          r.pvalue = 1 - zeroTcdf r.statistic r.degreesOfFreedom)) :=
  ⟨by decide, by norm_num [sampleVariance, lmean],
    t_test_one_tailed_direction zeroSqrt zeroTcdf [(0 : ℚ), 2] [(1 : ℚ), 4]
      false Direction.positive (by decide)
      (by norm_num [sampleVariance, lmean])⟩

/-- C5: For every two-sample t-test input in which a group has zero
variance, the modelled `t_test_two_sample` returns `InvalidInputError`
rather than a TestResult (over `ℚ` no NaN or infinity can be produced, so
every non-error result is finite). -/
theorem t_test_zero_variance_invalid (sqrtQ : ℚ → ℚ) (tcdf : ℚ → ℚ → ℚ)
    (a b : List ℚ) (equalVariance : Bool) (tails : Tails) (d : Direction)
    (h : sampleVariance a = 0 ∨ sampleVariance b = 0) :
    t_test_two_sample sqrtQ tcdf a b equalVariance tails d =
      Except.error StatError.invalidInput := by
  unfold t_test_two_sample
  by_cases h1 : a.length < 2 ∨ b.length < 2
  · rw [if_pos h1]
  · rw [if_neg h1, if_pos h]

/-- Witness for C5's theorem at the zero-variance group `[1, 1]`. -/
theorem t_test_zero_variance_invalid_witness :
    (sampleVariance [(1 : ℚ), 1] = 0 ∨ sampleVariance [(0 : ℚ), 2] = 0) ∧
    t_test_two_sample zeroSqrt zeroTcdf [(1 : ℚ), 1] [(0 : ℚ), 2] false
        Tails.two Direction.positive =
      Except.error StatError.invalidInput :=
  ⟨Or.inl (by norm_num [sampleVariance, lmean]),
    t_test_zero_variance_invalid zeroSqrt zeroTcdf [(1 : ℚ), 1]
      [(0 : ℚ), 2] false Tails.two Direction.positive
      (Or.inl (by norm_num [sampleVariance, lmean]))⟩

end TTestsAnova
